import Mathlib

/-!
Verification development for the subscription service (Go, `subscription_service`).

Shallow embedding of the request validation, filtering and aggregation core:
* the entity / request model (`internal/model/subsciption.go`),
* the repository layer (`subscriptionRepository` in the same file: the SQL is
  translated into pure operations over an in-memory list of rows, with the
  table CHECK constraints of `migrations/create_table.up.sql` enforced),
* the service layer in its newer variant (`subscriptionService` with
  `ValidationError` / `NotFoundError` / `ErrNoUpdates`), the one the claims'
  error taxonomy refers to.

Machine integers (`int` in Go, `INTEGER` in SQL) are modelled as `Int`;
overflow plays no role in any claim. Timestamps (`created_at` / `updated_at`)
carry no claim-relevant information and are omitted from the row model; the
`updated_at` column still appears in the generated SET-clause column list.
-/

/-! ## Calendar dates

Go `time.Time` values produced by `time.Parse` with the layouts `"01-2006"`
and `"2006-01-02"` are midnight-UTC calendar dates; comparing them with
`After` / `<=` is chronological comparison of (year, month, day). -/

structure Date where
  year : Nat
  month : Nat
  day : Nat
deriving DecidableEq, Repr

/-- Order-faithful key for valid dates (month ≤ 12 < 16, day ≤ 31 < 32). -/
def Date.toKey (d : Date) : Nat := d.year * 512 + d.month * 32 + d.day

/-- Chronological `a ≤ b` on calendar dates. -/
def Date.le (a b : Date) : Bool := a.toKey ≤ b.toKey

/-- Go `a.After(b)`: strictly later. -/
def Date.after (a b : Date) : Bool := b.toKey < a.toKey

/-! ## Date parsing

`time.Parse("01-2006", s)` accepts exactly a zero-padded two-digit month,
a dash and a four-digit year, with the month in 1..12; the day defaults to 1.
`time.Parse("2006-01-02", s)` accepts a four-digit year, two-digit month and
two-digit day, with the month in 1..12 and the day in range for that month
(leap years included). -/

def digitVal (c : Char) : Option Nat :=
  if c.isDigit then some (c.toNat - 48) else none

def twoDigits (a b : Char) : Option Nat := do
  let x ← digitVal a
  let y ← digitVal b
  pure (x * 10 + y)

def fourDigits (a b c d : Char) : Option Nat := do
  let x ← twoDigits a b
  let y ← twoDigits c d
  pure (x * 100 + y)

def isLeapYear (y : Nat) : Bool :=
  (y % 4 == 0 && y % 100 != 0) || (y % 400 == 0)

def daysInMonth (y m : Nat) : Nat :=
  if m == 2 then (if isLeapYear y then 29 else 28)
  else if m == 4 || m == 6 || m == 9 || m == 11 then 30
  else 31

/-- Layout `"01-2006"` (MM-YYYY), used by `CreateSubscriptionRequest.ToSubscription`. -/
def parseMonthYear (s : String) : Option Date :=
  match s.toList with
  | [m1, m2, '-', y1, y2, y3, y4] => do
    let m ← twoDigits m1 m2
    let y ← fourDigits y1 y2 y3 y4
    if 1 ≤ m && m ≤ 12 then pure ⟨y, m, 1⟩ else none
  | _ => none

/-- Layout `"2006-01-02"` (YYYY-MM-DD), used by the newer service variant for
update / list / aggregate dates. -/
def parseDateISO (s : String) : Option Date :=
  match s.toList with
  | [y1, y2, y3, y4, '-', m1, m2, '-', d1, d2] => do
    let y ← fourDigits y1 y2 y3 y4
    let m ← twoDigits m1 m2
    let d ← twoDigits d1 d2
    if 1 ≤ m && m ≤ 12 && 1 ≤ d && d ≤ daysInMonth y m then pure ⟨y, m, d⟩
    else none
  | _ => none

/-! ## UUIDs

`github.com/google/uuid`'s `Parse` accepts the canonical 36-character
hyphenated form, the `urn:uuid:`-prefixed form (case-insensitive prefix),
the braced form and the bare 32-hex-digit form. A UUID value is modelled as
its 128-bit numeric value (a `Nat`). -/

def hexVal (c : Char) : Option Nat :=
  if '0' ≤ c && c ≤ '9' then some (c.toNat - 48)
  else if 'a' ≤ c && c ≤ 'f' then some (c.toNat - 97 + 10)
  else if 'A' ≤ c && c ≤ 'F' then some (c.toNat - 65 + 10)
  else none

/-- Folds exactly 32 hex digits into the UUID value. -/
def hexUUID (cs : List Char) : Option Nat :=
  if cs.length == 32 then
    cs.foldlM (fun acc c => (hexVal c).map (fun v => acc * 16 + v)) 0
  else none

/-- The canonical `xxxxxxxx-xxxx-xxxx-xxxx-xxxxxxxxxxxx` form. -/
def parseCanonicalUUID (cs : List Char) : Option Nat :=
  if cs.length == 36 then
    if cs.get? 8 == some '-' && cs.get? 13 == some '-'
        && cs.get? 18 == some '-' && cs.get? 23 == some '-' then
      hexUUID (cs.take 8 ++ ((cs.drop 9).take 4) ++ ((cs.drop 14).take 4)
        ++ ((cs.drop 19).take 4) ++ cs.drop 24)
    else none
  else none

/-- `uuid.Parse`. -/
def parseUUID (s : String) : Option Nat :=
  let cs := s.toList
  if cs.length == 36 then parseCanonicalUUID cs
  else if cs.length == 45 then
    if (cs.take 9).map Char.toLower == "urn:uuid:".toList then
      parseCanonicalUUID (cs.drop 9)
    else none
  else if cs.length == 38 then
    match cs with
    | '{' :: rest =>
      if rest.getLast? == some '}' then parseCanonicalUUID (rest.dropLast)
      else none
    | _ => none
  else if cs.length == 32 then hexUUID cs
  else none

/-! ## SQL `ILIKE`

PostgreSQL `text ILIKE pattern` lower-cases both sides and matches the
pattern with `%` (any run) and `_` (any single character) wildcards, with
backslash as the default ESCAPE character: a backslash-escaped character
(including `%`, `_` and `\` itself) matches literally, and a pattern that
ends with the bare escape character is rejected with SQL error 22025
(`LIKE pattern must not end with escape character`) — a statement error,
not a non-match. -/

def lowerL (s : String) : List Char := s.toList.map Char.toLower

/-- A LIKE pattern is well-formed unless, after consuming escape pairs, it
ends with a bare escape character (SQL error 22025 otherwise). -/
def likePatValid (p : List Char) : Bool :=
  match p with
  | [] => true
  | c :: ps =>
    if c = '\\' then
      match ps with
      | [] => false
      | _ :: ps2 => likePatValid ps2
    else likePatValid ps

/-- LIKE-pattern matching over (already lower-cased) character lists: a
backslash-escaped character matches itself literally, `%` matches any run
(the rest of the pattern must match some suffix of the text), `_` matches
any single character, anything else matches itself. Only applied to
patterns accepted by `likePatValid`; on the (rejected) trailing-escape
pattern it returns `false`, a value the repository never consults. -/
def likeM (p t : List Char) : Bool :=
  match p with
  | [] => t.isEmpty
  | c :: ps =>
    if c = '\\' then
      match ps with
      | [] => false
      | e :: ps2 =>
        match t with
        | [] => false
        | a :: ts => (e == a) && likeM ps2 ts
    else if c = '%' then t.tails.any (fun suf => likeM ps suf)
    else
      match t with
      | [] => false
      | a :: ts => (if c = '_' then true else c == a) && likeM ps ts

def ilike (pat text : String) : Bool := likeM (lowerL pat) (lowerL text)

/-- `service_name ILIKE $n` with the raw filter string — the aggregate path
(`subscriptionRepository.Aggregate`). -/
def aggServiceMatch (pat name : String) : Bool := ilike pat name

/-- Validity of the aggregate path's ILIKE pattern: the raw filter string
itself (lower-casing neither adds nor removes backslashes). -/
def aggPatternValid (pat : String) : Bool := likePatValid pat.toList

/-- `service_name ILIKE '%' || $n || '%'` — the list path
(`subscriptionRepository.List` binds `"%" + *filter.ServiceName + "%"`).
The wrapped pattern always ends in `%` (bare, or escaped together with a
preceding backslash), so it is never rejected by the escape check. -/
def listServiceMatch (pat name : String) : Bool := ilike ("%" ++ pat ++ "%") name

/-! ## Entity and request model (`internal/model/subsciption.go`) -/

structure Subscription where
  ID : Nat
  ServiceName : String
  Price : Int
  UserID : Nat
  StartDate : Date
  EndDate : Option Date
deriving DecidableEq, Repr

structure CreateSubscriptionRequest where
  ServiceName : String
  Price : Int
  UserID : String
  StartDate : String
  /-- Go zero value `""` means the field was absent. -/
  EndDate : String
deriving DecidableEq, Repr

structure UpdateSubscriptionRequest where
  ServiceName : Option String
  Price : Option Int
  EndDate : Option String
deriving DecidableEq, Repr

structure SubscriptionFilter where
  UserID : Option Nat
  ServiceName : Option String
  StartDate : Option Date
  EndDate : Option Date
  Limit : Int
  Offset : Int
deriving DecidableEq, Repr

structure AggregateRequest where
  UserID : Option String
  ServiceName : Option String
  StartDate : String
  EndDate : String
deriving DecidableEq, Repr

/-! ## Repository layer (`subscriptionRepository`)

The store is a list of rows of the single `subscriptions` table. The table
constraints of `migrations/create_table.up.sql` are: primary key `id`,
`CHECK (price >= 0)` and `CHECK (end_date IS NULL OR end_date >= start_date)`.
The driver-level failure modes are the two the Go code distinguishes:
`sql.ErrNoRows` and everything else. -/

inductive RepoErr
  | noRows
  | storage
deriving DecidableEq, Repr

/-- The row-level CHECK constraints of the `subscriptions` table. -/
def rowOk (s : Subscription) : Bool :=
  0 ≤ s.Price &&
    (match s.EndDate with
     | none => true
     | some e => Date.le s.StartDate e)

/-- `INSERT INTO subscriptions ...`: fails with a storage error on a
constraint violation (CHECK or duplicate primary key). -/
def repoCreate (db : List Subscription) (sub : Subscription) :
    Except RepoErr (List Subscription) :=
  if rowOk sub && db.all (fun r => !(r.ID == sub.ID)) then
    .ok (db ++ [sub])
  else .error .storage

/-- `SELECT ... WHERE id = $1` with the `sql.ErrNoRows` case mapped to an
absent value, exactly as `subscriptionRepository.GetByID` does. -/
def repoGetByID (db : List Subscription) (id : Nat) : Option Subscription :=
  db.find? (fun r => r.ID == id)

/-- A bound value of the dynamic UPDATE statement. -/
inductive SqlValue
  | str (s : String)
  | int (n : Int)
  | date (d : Date)
  | null
deriving DecidableEq, Repr

/-- The SET-clause column list `subscriptionRepository.Update` interpolates:
one clause per map entry plus the always-added `updated_at`. -/
def updateSetColumns (updates : List (String × SqlValue)) : List String :=
  updates.map Prod.fst ++ ["updated_at"]

/-- Applying one `column = value` SET clause to a row; an unknown column or a
mistyped bound value is a statement error. -/
def applyCol (row : Subscription) (kv : String × SqlValue) : Option Subscription :=
  if kv.1 = "service_name" then
    match kv.2 with
    | .str v => some { row with ServiceName := v }
    | _ => none
  else if kv.1 = "price" then
    match kv.2 with
    | .int v => some { row with Price := v }
    | _ => none
  else if kv.1 = "end_date" then
    match kv.2 with
    | .date d => some { row with EndDate := some d }
    | .null => some { row with EndDate := none }
    | _ => none
  else none

def applyCols (row : Subscription) : List (String × SqlValue) → Option Subscription
  | [] => some row
  | kv :: rest =>
    match applyCol row kv with
    | none => none
    | some row2 => applyCols row2 rest

/-- A column/value pair the statement can execute at all. -/
def colOk (kv : String × SqlValue) : Bool :=
  if kv.1 = "service_name" then
    match kv.2 with
    | .str _ => true
    | _ => false
  else if kv.1 = "price" then
    match kv.2 with
    | .int _ => true
    | _ => false
  else if kv.1 = "end_date" then
    match kv.2 with
    | .date _ => true
    | .null => true
    | _ => false
  else false

/-- The UPDATE applied to one row: rows with a different id are untouched; a
matching row gets the SET clauses applied and must still satisfy the table
CHECKs. -/
def updateRow (id : Nat) (updates : List (String × SqlValue))
    (row : Subscription) : Option Subscription :=
  if row.ID == id then
    match applyCols row updates with
    | none => none
    | some r => if rowOk r then some r else none
  else some row

def mapRows (f : Subscription → Option Subscription) :
    List Subscription → Option (List Subscription)
  | [] => some []
  | r :: rs =>
    match f r, mapRows f rs with
    | some r2, some rs2 => some (r2 :: rs2)
    | _, _ => none

/-- `subscriptionRepository.Update`: an empty map returns immediately with no
statement executed; otherwise the dynamic statement runs (a bad column is a
storage error even when no row matches), and zero affected rows is
`sql.ErrNoRows`. -/
def repoUpdate (db : List Subscription) (id : Nat)
    (updates : List (String × SqlValue)) : Except RepoErr (List Subscription) :=
  if updates.isEmpty then .ok db
  else if !(updates.all colOk) then .error .storage
  else
    match mapRows (updateRow id updates) db with
    | none => .error .storage
    | some db2 =>
      if db.any (fun r => r.ID == id) then .ok db2 else .error .noRows

/-- The WHERE clause `subscriptionRepository.List` builds: user-id equality,
service-name substring `ILIKE`, inclusive start-date lower bound, inclusive
end-date upper bound with NULL end dates always passing. -/
def listMatches (f : SubscriptionFilter) (s : Subscription) : Bool :=
  (match f.UserID with
   | none => true
   | some u => s.UserID == u) &&
  (match f.ServiceName with
   | none => true
   | some p => listServiceMatch p s.ServiceName) &&
  (match f.StartDate with
   | none => true
   | some d => Date.le d s.StartDate) &&
  (match f.EndDate with
   | none => true
   | some d =>
     match s.EndDate with
     | none => true
     | some e => Date.le e d)

def insertDesc (s : Subscription) : List Subscription → List Subscription
  | [] => [s]
  | t :: ts => if Date.le t.StartDate s.StartDate then s :: t :: ts
               else t :: insertDesc s ts

/-- `ORDER BY start_date DESC`. -/
def sortByStartDesc : List Subscription → List Subscription
  | [] => []
  | s :: ss => insertDesc s (sortByStartDesc ss)

/-- `subscriptionRepository.List`: filter, order descending by start date,
then `OFFSET` (only when positive) and `LIMIT` (only when positive). -/
def repoList (db : List Subscription) (f : SubscriptionFilter) :
    List Subscription :=
  let rows := sortByStartDesc (db.filter (listMatches f))
  let rows := if f.Offset > 0 then rows.drop f.Offset.toNat else rows
  if f.Limit > 0 then rows.take f.Limit.toNat else rows

def sumPrices (l : List Subscription) : Int :=
  (l.map (fun s => s.Price)).sum

/-- The WHERE clause of `subscriptionRepository.Aggregate`:
`start_date <= $2 AND (end_date IS NULL OR end_date >= $1)` plus the two
optional filters (user-id equality, raw-string `ILIKE`). -/
def overlapsWindow (ps pe : Date) (s : Subscription) : Bool :=
  Date.le s.StartDate pe &&
    (match s.EndDate with
     | none => true
     | some e => Date.le ps e)

/-- `SELECT COALESCE(SUM(price), 0) ...`: the sum of the prices of the rows
selected by the WHERE clause, `0` when none is. A service-name filter whose
string is an ill-formed LIKE pattern (it ends with the bare escape
character) makes the statement fail with SQL error 22025, which the Go code
wraps and returns as a query error. -/
def repoAggregate (db : List Subscription) (ps pe : Date)
    (uid : Option Nat) (svc : Option String) : Except RepoErr Int :=
  if (match svc with
      | none => true
      | some pat => aggPatternValid pat) then
    .ok (sumPrices (db.filter (fun s =>
      overlapsWindow ps pe s &&
      (match uid with
       | none => true
       | some u => s.UserID == u) &&
      (match svc with
       | none => true
       | some p => aggServiceMatch p s.ServiceName))))
  else .error .storage

/-! ## Service layer (newer variant of `subscriptionService`)

The variant with the structured error taxonomy: `ValidationError{Field}`,
`NotFoundError{ID}`, `ErrNoUpdates`, plus everything else surfacing as a
wrapped storage error. State-changing operations return the result paired
with the (possibly updated) store; on every error path the store is the one
passed in. -/

inductive SvcError
  | validation (field : String)
  | notFound (id : String)
  | noUpdates
  | storage
deriving DecidableEq, Repr

/-- Is the outcome a field-tagged validation error? -/
def exceptIsValidation {α : Type} : Except SvcError α → Bool
  | .error (.validation _) => true
  | _ => false

/-- Did the operation succeed? -/
def exceptIsOk {α : Type} : Except SvcError α → Bool
  | .ok _ => true
  | _ => false

/-- `CreateSubscriptionRequest.ToSubscription`: parse the user id and the
`"01-2006"` dates, generate a fresh identifier (abstracted as the `newId`
argument), treat an empty end-date string as absent. No comparison between
the two dates is performed. -/
def ToSubscription (newId : Nat) (r : CreateSubscriptionRequest) :
    Option Subscription :=
  match parseUUID r.UserID with
  | none => none
  | some uid =>
    match parseMonthYear r.StartDate with
    | none => none
    | some sd =>
      let base : Subscription :=
        { ID := newId, ServiceName := r.ServiceName, Price := r.Price,
          UserID := uid, StartDate := sd, EndDate := none }
      if r.EndDate == "" then some base
      else
        match parseMonthYear r.EndDate with
        | none => none
        | some ed => some { base with EndDate := some ed }

/-- `subscriptionService.Create`: price non-negativity first, then
`ToSubscription` (failures become a validation error tagged `request`), then
the insert (failures become a storage error). -/
def serviceCreate (newId : Nat) (db : List Subscription)
    (req : CreateSubscriptionRequest) :
    Except SvcError Subscription × List Subscription :=
  if req.Price < 0 then (.error (.validation "price"), db)
  else
    match ToSubscription newId req with
    | none => (.error (.validation "request"), db)
    | some sub =>
      match repoCreate db sub with
      | .error _ => (.error .storage, db)
      | .ok db2 => (.ok sub, db2)

/-- `subscriptionService.GetByID` (newer variant): invalid UUID is a
validation error tagged `id`; a repository absent value is turned into
`NotFoundError`. -/
def serviceGetByID (db : List Subscription) (id : String) :
    Except SvcError Subscription :=
  match parseUUID id with
  | none => .error (.validation "id")
  | some u =>
    match repoGetByID db u with
    | none => .error (.notFound id)
    | some sub => .ok sub

/-- The end-date step of the update map construction: an empty-string
sentinel maps the `end_date` column to NULL; a non-empty value must parse as
`"2006-01-02"`. -/
def buildUpdatesEnd (u : List (String × SqlValue))
    (req : UpdateSubscriptionRequest) :
    Except SvcError (List (String × SqlValue)) :=
  match req.EndDate with
  | none => .ok u
  | some s =>
    if s == "" then .ok (u ++ [("end_date", SqlValue.null)])
    else
      match parseDateISO s with
      | none => .error (.validation "end_date")
      | some d => .ok (u ++ [("end_date", SqlValue.date d)])

/-- The sparse update map `subscriptionService.Update` builds: only the
fields present in the request, with the price validated before insertion. -/
def buildUpdates (req : UpdateSubscriptionRequest) :
    Except SvcError (List (String × SqlValue)) :=
  let u1 : List (String × SqlValue) :=
    match req.ServiceName with
    | none => []
    | some s => [("service_name", SqlValue.str s)]
  match req.Price with
  | none => buildUpdatesEnd u1 req
  | some p =>
    if p < 0 then .error (.validation "price")
    else buildUpdatesEnd (u1 ++ [("price", SqlValue.int p)]) req

/-- The storage-free part of `subscriptionService.Update`: id validation,
update-map construction, and the dedicated no-updates condition — everything
the operation does before the repository is involved. -/
def updatePlan (id : String) (req : UpdateSubscriptionRequest) :
    Except SvcError (Nat × List (String × SqlValue)) :=
  match parseUUID id with
  | none => .error (.validation "id")
  | some u =>
    match buildUpdates req with
    | .error e => .error e
    | .ok us => if us.isEmpty then .error .noUpdates else .ok (u, us)

/-- `subscriptionService.Update` (newer variant): the plan stage followed by
the repository update, with `sql.ErrNoRows` translated to `NotFoundError`. -/
def serviceUpdate (db : List Subscription) (id : String)
    (req : UpdateSubscriptionRequest) :
    Except SvcError Unit × List Subscription :=
  match updatePlan id req with
  | .error e => (.error e, db)
  | .ok (u, us) =>
    match repoUpdate db u us with
    | .error .noRows => (.error (.notFound id), db)
    | .error .storage => (.error .storage, db)
    | .ok db2 => (.ok (), db2)

/-- The optional user-id filter: absent stays absent, present must parse. -/
def parseOptUUID : Option String → Option (Option Nat)
  | none => some none
  | some s =>
    match parseUUID s with
    | none => none
    | some u => some (some u)

/-- The optional `"2006-01-02"` date filters of the list operation. -/
def parseOptDateISO : Option String → Option (Option Date)
  | none => some none
  | some s =>
    match parseDateISO s with
    | none => none
    | some d => some (some d)

/-- `subscriptionService.List` (newer variant): validate the optional
filters in source order (user id, then start date, then end date), pass the
service-name filter through untouched, and run the repository scan. -/
def serviceList (db : List Subscription)
    (userID serviceName startDate endDate : Option String)
    (limit offset : Int) : Except SvcError (List Subscription) :=
  match parseOptUUID userID with
  | none => .error (.validation "user_id")
  | some uid =>
    match parseOptDateISO startDate with
    | none => .error (.validation "start_date")
    | some sd =>
      match parseOptDateISO endDate with
      | none => .error (.validation "end_date")
      | some ed =>
        .ok (repoList db
          { UserID := uid, ServiceName := serviceName, StartDate := sd,
            EndDate := ed, Limit := limit, Offset := offset })

/-- The storage-free part of `subscriptionService.Aggregate` (newer
variant): parse both `"2006-01-02"` period bounds, reject an inverted range
with a validation error tagged `date_range`, then validate the optional user
id. -/
def aggregatePlan (req : AggregateRequest) :
    Except SvcError (Date × Date × Option Nat) :=
  match parseDateISO req.StartDate with
  | none => .error (.validation "start_date")
  | some sd =>
    match parseDateISO req.EndDate with
    | none => .error (.validation "end_date")
    | some ed =>
      if Date.after sd ed then .error (.validation "date_range")
      else
        match parseOptUUID req.UserID with
        | none => .error (.validation "user_id")
        | some uid => .ok (sd, ed, uid)

/-- `subscriptionService.Aggregate` (newer variant). -/
def serviceAggregate (db : List Subscription) (req : AggregateRequest) :
    Except SvcError Int :=
  match aggregatePlan req with
  | .error e => .error e
  | .ok (sd, ed, uid) =>
    match repoAggregate db sd ed uid req.ServiceName with
    | .error _ => .error .storage
    | .ok total => .ok total

deriving instance DecidableEq for Except

/-! ## Claim C2 -/

/-- C2: for every update call whose request has no fields set and whose id
is a syntactically valid UUID, the storage-free plan stage already rejects
with the dedicated no-updates condition (distinct from validation errors),
and the operation returns that condition with the stored subscriptions
unchanged. -/
theorem update_no_fields_is_no_updates (db : List Subscription) (id : String)
    (u : Nat) (h : parseUUID id = some u) :
    updatePlan id ⟨none, none, none⟩ = .error .noUpdates ∧
    serviceUpdate db id ⟨none, none, none⟩ = (.error .noUpdates, db) := by
  have hplan : updatePlan id ⟨none, none, none⟩ = .error .noUpdates := by
    unfold updatePlan
    rw [h]
    rfl
  exact ⟨hplan, by unfold serviceUpdate; rw [hplan]⟩

theorem update_no_fields_is_no_updates_witness :
    updatePlan "00000000-0000-0000-0000-000000000000" ⟨none, none, none⟩ =
      .error .noUpdates ∧
    serviceUpdate [] "00000000-0000-0000-0000-000000000000" ⟨none, none, none⟩ =
      (.error .noUpdates, []) :=
  update_no_fields_is_no_updates [] "00000000-0000-0000-0000-000000000000" 0
    (by decide)

/-! ## Claim C8 -/

/-- C8: an aggregate request whose two period bounds both parse but with the
start strictly after the end fails in the storage-free plan stage with a
validation error tagged `date_range`; the operation returns exactly that
error (the repository is never consulted). -/
theorem aggregate_inverted_range_is_validation (db : List Subscription)
    (req : AggregateRequest) (ps pe : Date)
    (hs : parseDateISO req.StartDate = some ps)
    (he : parseDateISO req.EndDate = some pe)
    (hafter : Date.after ps pe = true) :
    aggregatePlan req = .error (.validation "date_range") ∧
    serviceAggregate db req = .error (.validation "date_range") := by
  have hplan : aggregatePlan req = .error (.validation "date_range") := by
    unfold aggregatePlan
    rw [hs, he]
    simp [hafter]
  exact ⟨hplan, by unfold serviceAggregate; rw [hplan]⟩

theorem aggregate_inverted_range_is_validation_witness :
    aggregatePlan ⟨none, none, "2024-03-01", "2024-02-01"⟩ =
      .error (.validation "date_range") ∧
    serviceAggregate [] ⟨none, none, "2024-03-01", "2024-02-01"⟩ =
      .error (.validation "date_range") :=
  aggregate_inverted_range_is_validation [] ⟨none, none, "2024-03-01", "2024-02-01"⟩
    ⟨2024, 3, 1⟩ ⟨2024, 2, 1⟩ (by decide) (by decide) (by decide)

/-! ## Claim C4

The repository returns the absent value (`nil, nil`) for a missing id, the
older service variant passes that absent value through, and the newer
handler still checks for the absent value to produce its 404 — but the newer
service variant instead converts absence into a `NotFoundError`, which that
handler does not recognize (it only matches `ValidationError` there), so a
missing id surfaces as a generic failure. The theorem evaluates both layers
at the failing input. -/

/-- C4: at a syntactically valid UUID with no matching row, the repository
yields the explicit absent value without an error, yet the newer service
variant reports the case as a not-found error instead of returning the
absent value. -/
theorem getById_missing_id_divergence :
    repoGetByID [] 0 = none ∧
    serviceGetByID [] "00000000-0000-0000-0000-000000000000" =
      .error (.notFound "00000000-0000-0000-0000-000000000000") := by decide

/-! ## Claim C3 -/

/-- C3 counterexample: a create request whose end date (01-2024) is strictly
before its start date (03-2024) passes request validation and fails at the
storage layer (the `end_date >= start_date` CHECK), not with a validation
error. -/
theorem create_inverted_dates_counterexample :
    serviceCreate 7 []
        ⟨"Netflix", 5, "00000000-0000-0000-0000-000000000000", "03-2024", "01-2024"⟩ =
      (.error .storage, []) ∧
    exceptIsValidation
        (serviceCreate 7 []
          ⟨"Netflix", 5, "00000000-0000-0000-0000-000000000000", "03-2024", "01-2024"⟩).1 =
      false := by decide

/-- C3 amended: the create path performs no date-order validation; a request
with a non-negative price that converts to a subscription whose end date is
strictly before its start date reaches the storage layer and fails there
with a storage error (the table CHECK), leaving the store unchanged. -/
theorem create_inverted_dates_is_storage_error (newId : Nat)
    (db : List Subscription) (req : CreateSubscriptionRequest)
    (sub : Subscription) (e : Date)
    (hp : ¬ req.Price < 0)
    (ht : ToSubscription newId req = some sub)
    (he : sub.EndDate = some e)
    (hlt : Date.le sub.StartDate e = false) :
    serviceCreate newId db req = (.error .storage, db) := by
  have hrow : rowOk sub = false := by
    unfold rowOk
    rw [he]
    simp [hlt]
  unfold serviceCreate
  rw [if_neg hp, ht]
  simp [repoCreate, hrow]

theorem create_inverted_dates_is_storage_error_witness :
    serviceCreate 7 []
        ⟨"Netflix", 5, "00000000-0000-0000-0000-000000000001", "03-2024", "01-2024"⟩ =
      (.error .storage, []) :=
  create_inverted_dates_is_storage_error 7 []
    ⟨"Netflix", 5, "00000000-0000-0000-0000-000000000001", "03-2024", "01-2024"⟩
    ⟨7, "Netflix", 5, 1, ⟨2024, 3, 1⟩, some ⟨2024, 1, 1⟩⟩ ⟨2024, 1, 1⟩
    (by decide) (by decide) rfl (by decide)

/-! ## Claim C5 -/

/-- C5 counterexample: an update call supplying a negative price together
with a malformed id fails with the validation error tagged `id`, not the one
tagged `price`. -/
theorem negative_price_tag_counterexample :
    serviceUpdate [] "not-a-uuid" ⟨none, some (-5), none⟩ =
      (.error (.validation "id"), []) ∧
    SvcError.validation "id" ≠ SvcError.validation "price" := by decide

/-- C5 amended: every create call with a negative price fails with a
validation error tagged `price` before any storage call; every update call
with a negative price whose id is a syntactically valid UUID does the same
(with a malformed id, the id validation error fires first). -/
theorem negative_price_is_validation :
    (∀ (newId : Nat) (db : List Subscription) (req : CreateSubscriptionRequest),
        req.Price < 0 →
        serviceCreate newId db req = (.error (.validation "price"), db)) ∧
    (∀ (db : List Subscription) (id : String) (req : UpdateSubscriptionRequest)
        (u : Nat) (p : Int),
        parseUUID id = some u → req.Price = some p → p < 0 →
        serviceUpdate db id req = (.error (.validation "price"), db)) := by
  constructor
  · intro newId db req hp
    unfold serviceCreate
    rw [if_pos hp]
  · intro db id req u p hu hp hneg
    have hb : buildUpdates req = .error (.validation "price") := by
      unfold buildUpdates
      rw [hp]
      simp [hneg]
    have hplan : updatePlan id req = .error (.validation "price") := by
      unfold updatePlan
      rw [hu, hb]
    unfold serviceUpdate
    rw [hplan]

theorem negative_price_is_validation_witness :
    serviceCreate 3 []
        ⟨"x", -1, "00000000-0000-0000-0000-000000000000", "01-2024", ""⟩ =
      (.error (.validation "price"), []) ∧
    serviceUpdate [] "00000000-0000-0000-0000-000000000000"
        ⟨none, some (-2), none⟩ =
      (.error (.validation "price"), []) :=
  ⟨negative_price_is_validation.1 3 []
      ⟨"x", -1, "00000000-0000-0000-0000-000000000000", "01-2024", ""⟩ (by decide),
   negative_price_is_validation.2 [] "00000000-0000-0000-0000-000000000000"
      ⟨none, some (-2), none⟩ 0 (-2) (by decide) rfl (by decide)⟩

/-! ## Claim C9 -/

/-- C9: a list call whose optional filters are all valid and which matches
no stored subscription succeeds with the empty sequence — not an absent
value and not an error. -/
theorem list_no_match_is_empty (db : List Subscription)
    (userID serviceName startDate endDate : Option String)
    (limit offset : Int) (uid : Option Nat) (sd ed : Option Date)
    (hu : parseOptUUID userID = some uid)
    (hs : parseOptDateISO startDate = some sd)
    (he : parseOptDateISO endDate = some ed)
    (hnone : ∀ s ∈ db,
      listMatches ⟨uid, serviceName, sd, ed, limit, offset⟩ s = false) :
    serviceList db userID serviceName startDate endDate limit offset =
      .ok [] := by
  have hfilter :
      db.filter (listMatches ⟨uid, serviceName, sd, ed, limit, offset⟩) = [] := by
    refine List.filter_eq_nil_iff.mpr ?_
    intro a ha
    rw [hnone a ha]
    simp
  unfold serviceList
  rw [hu, hs, he]
  show Except.ok (repoList db ⟨uid, serviceName, sd, ed, limit, offset⟩) =
    Except.ok ([] : List Subscription)
  simp [repoList, hfilter, sortByStartDesc]

theorem list_no_match_is_empty_witness :
    serviceList [⟨1, "Netflix", 5, 9, ⟨2024, 1, 1⟩, none⟩]
        (some "00000000-0000-0000-0000-000000000002") none none none 10 0 =
      .ok [] :=
  list_no_match_is_empty [⟨1, "Netflix", 5, 9, ⟨2024, 1, 1⟩, none⟩]
    (some "00000000-0000-0000-0000-000000000002") none none none 10 0
    (some 2) none none (by decide) rfl rfl (by decide)

/-! ## Claim C7 -/

/-- The fixed set of column names the dynamic UPDATE may mention. -/
def allowedColumns : List String :=
  ["service_name", "price", "end_date", "updated_at"]

/-- C7: for every update request, every column name interpolated into the
generated SET clause — the map keys plus the always-added `updated_at` — is
drawn from the fixed allow-list; no client-supplied string reaches column
position. -/
theorem update_columns_from_allowlist (req : UpdateSubscriptionRequest)
    (us : List (String × SqlValue)) (h : buildUpdates req = .ok us) :
    (updateSetColumns us).all (fun c => allowedColumns.contains c) = true := by
  rcases req with ⟨sn, pr, ed⟩
  cases sn <;> cases pr <;> cases ed <;>
    simp only [buildUpdates, buildUpdatesEnd] at h <;>
    repeat' split at h
  all_goals injection h
  all_goals rename_i h
  all_goals subst h
  all_goals rfl

theorem update_columns_from_allowlist_witness :
    (updateSetColumns [("service_name", SqlValue.str "x); DROP TABLE subscriptions;--"),
        ("price", SqlValue.int 3), ("end_date", SqlValue.null)]).all
      (fun c => allowedColumns.contains c) = true :=
  update_columns_from_allowlist
    ⟨some "x); DROP TABLE subscriptions;--", some 3, some ""⟩ _ rfl

/-! ## Claim C1 -/

/-- The claim's selection predicate, written from its words: the
subscription satisfies `start_date <= periodEnd` and (`end_date` is null or
`end_date >= periodStart`), and matches the optional user-id and
service-name filters. -/
def claimSelected (ps pe : Date) (uid : Option Nat) (svc : Option String)
    (s : Subscription) : Bool :=
  Date.le s.StartDate pe &&
  (s.EndDate.isNone || s.EndDate.any (fun e => Date.le ps e)) &&
  uid.all (fun u => s.UserID == u) &&
  svc.all (fun p => aggServiceMatch p s.ServiceName)

/-- C1 counterexample: with a valid window and an overlapping subscription,
an aggregate whose service-name filter ends with the bare LIKE escape
character makes the statement fail (SQL error 22025) and the operation
return a storage error — not a total, and not 0. -/
theorem aggregate_invalid_pattern_counterexample :
    serviceAggregate [⟨1, "netflix", 7, 2, ⟨2024, 3, 1⟩, none⟩]
        ⟨none, some "x\\", "2024-01-01", "2024-12-01"⟩ = .error .storage ∧
    exceptIsOk (serviceAggregate [⟨1, "netflix", 7, 2, ⟨2024, 3, 1⟩, none⟩]
        ⟨none, some "x\\", "2024-01-01", "2024-12-01"⟩) = false := by decide

/-- C1 amended: an aggregate query with a valid window (both bounds parse,
start not after end), a valid optional user-id filter, and a service-name
filter (if present) that is a well-formed LIKE pattern returns exactly the
sum of the full prices of the stored subscriptions selected by the claim's
overlap predicate — a partially-overlapping subscription contributes its
full price — and returns 0 (not an error) when no subscription is
selected. (A filter ending in the bare escape character instead fails as a
storage error.) -/
theorem aggregate_sums_overlapping (db : List Subscription)
    (req : AggregateRequest) (ps pe : Date) (uid : Option Nat)
    (hs : parseDateISO req.StartDate = some ps)
    (he : parseDateISO req.EndDate = some pe)
    (hw : Date.after ps pe = false)
    (hu : parseOptUUID req.UserID = some uid)
    (hv : ∀ pat, req.ServiceName = some pat → aggPatternValid pat = true) :
    serviceAggregate db req =
      .ok (sumPrices (db.filter (claimSelected ps pe uid req.ServiceName))) ∧
    ((∀ s ∈ db, claimSelected ps pe uid req.ServiceName s = false) →
      serviceAggregate db req = .ok 0) := by
  have hplan : aggregatePlan req = .ok (ps, pe, uid) := by
    unfold aggregatePlan
    rw [hs, he]
    simp [hw]
    rw [hu]
  have hvcond : (match req.ServiceName with
      | none => true
      | some pat => aggPatternValid pat) = true := by
    cases hsv : req.ServiceName with
    | none => rfl
    | some pat => exact hv pat hsv
  have hrep : repoAggregate db ps pe uid req.ServiceName =
      .ok (sumPrices (db.filter (claimSelected ps pe uid req.ServiceName))) := by
    unfold repoAggregate
    rw [if_pos hvcond]
    refine congrArg (fun l => (Except.ok (sumPrices l) : Except RepoErr Int)) ?_
    refine List.filter_congr ?_
    intro s _
    unfold claimSelected overlapsWindow
    cases s.EndDate <;> cases uid <;> cases req.ServiceName <;>
      simp [Option.all, Option.any]
  have hmain : serviceAggregate db req =
      .ok (sumPrices (db.filter (claimSelected ps pe uid req.ServiceName))) := by
    unfold serviceAggregate
    rw [hplan]
    show (match repoAggregate db ps pe uid req.ServiceName with
          | .error _ => (Except.error SvcError.storage : Except SvcError Int)
          | .ok total => .ok total) = _
    simp only [hrep]
  refine ⟨hmain, fun hnone => ?_⟩
  have hfil : db.filter (claimSelected ps pe uid req.ServiceName) = [] := by
    refine List.filter_eq_nil_iff.mpr ?_
    intro a ha
    rw [hnone a ha]
    simp
  rw [hmain, hfil]
  rfl

/-- Witness for C1, the overlap example: A lives over [2024-01, 2024-03], B
is ongoing from 2024-02; over the window [2024-02-01, 2024-02-01] both are
selected despite only partially overlapping it, and the total is the sum of
their full prices. -/
theorem aggregate_sums_overlapping_witness :
    serviceAggregate
        [⟨1, "A", 3, 10, ⟨2024, 1, 1⟩, some ⟨2024, 3, 1⟩⟩,
         ⟨2, "B", 5, 10, ⟨2024, 2, 1⟩, none⟩]
        ⟨none, none, "2024-02-01", "2024-02-01"⟩ =
      .ok (sumPrices
        (List.filter (claimSelected ⟨2024, 2, 1⟩ ⟨2024, 2, 1⟩ none none)
          [⟨1, "A", 3, 10, ⟨2024, 1, 1⟩, some ⟨2024, 3, 1⟩⟩,
           ⟨2, "B", 5, 10, ⟨2024, 2, 1⟩, none⟩])) ∧
    ((∀ s ∈ [⟨1, "A", 3, 10, ⟨2024, 1, 1⟩, some ⟨2024, 3, 1⟩⟩,
         (⟨2, "B", 5, 10, ⟨2024, 2, 1⟩, none⟩ : Subscription)],
        claimSelected ⟨2024, 2, 1⟩ ⟨2024, 2, 1⟩ none none s = false) →
      serviceAggregate
          [⟨1, "A", 3, 10, ⟨2024, 1, 1⟩, some ⟨2024, 3, 1⟩⟩,
           ⟨2, "B", 5, 10, ⟨2024, 2, 1⟩, none⟩]
          ⟨none, none, "2024-02-01", "2024-02-01"⟩ = .ok 0) :=
  aggregate_sums_overlapping
    [⟨1, "A", 3, 10, ⟨2024, 1, 1⟩, some ⟨2024, 3, 1⟩⟩,
     ⟨2, "B", 5, 10, ⟨2024, 2, 1⟩, none⟩]
    ⟨none, none, "2024-02-01", "2024-02-01"⟩
    ⟨2024, 2, 1⟩ ⟨2024, 2, 1⟩ none (by decide) (by decide) (by decide) rfl
    (fun pat h => Option.noConfusion h)

/-! ## Claim C6: helper lemmas about the dynamic UPDATE -/

theorem applyCols_append (a b : List (String × SqlValue)) :
    ∀ row, applyCols row (a ++ b) =
      match applyCols row a with
      | none => none
      | some r => applyCols r b := by
  induction a with
  | nil => intro row; rfl
  | cons kv rest ih =>
    intro row
    simp only [List.cons_append, applyCols]
    cases h1 : applyCol row kv with
    | none => simp
    | some row2 => simpa using ih row2

theorem applyCol_endDate (row r : Subscription) (kv : String × SqlValue)
    (hk : kv.1 ≠ "end_date") (h : applyCol row kv = some r) :
    r.EndDate = row.EndDate := by
  rcases kv with ⟨k, v⟩
  by_cases h1 : k = "service_name"
  · subst h1
    cases v with
    | str s => simp [applyCol] at h; rw [← h]
    | int n => simp [applyCol] at h
    | date d => simp [applyCol] at h
    | null => simp [applyCol] at h
  · by_cases h2 : k = "price"
    · subst h2
      cases v with
      | str s => simp [applyCol] at h
      | int n => simp [applyCol] at h; rw [← h]
      | date d => simp [applyCol] at h
      | null => simp [applyCol] at h
    · have h3 : ¬ k = "end_date" := by simpa using hk
      simp [applyCol, h1, h2, h3] at h

theorem applyCols_endDate (us : List (String × SqlValue))
    (hk : ∀ kv ∈ us, kv.1 ≠ "end_date") :
    ∀ row r, applyCols row us = some r → r.EndDate = row.EndDate := by
  induction us with
  | nil =>
    intro row r h
    injection h with h
    subst h
    rfl
  | cons kv rest ih =>
    intro row r h
    unfold applyCols at h
    cases h1 : applyCol row kv with
    | none => simp only [h1] at h; cases h
    | some row2 =>
      simp only [h1] at h
      have e1 := applyCol_endDate row row2 kv (hk kv (by simp)) h1
      have e2 := ih (fun kv2 hkv2 => hk kv2 (by simp [hkv2])) row2 r h
      rw [e2, e1]

theorem updateRow_endDate (u : Nat) (us : List (String × SqlValue))
    (hk : ∀ kv ∈ us, kv.1 ≠ "end_date") (row r : Subscription)
    (h : updateRow u us row = some r) : r.EndDate = row.EndDate := by
  unfold updateRow at h
  split at h
  · cases h1 : applyCols row us with
    | none => simp only [h1] at h; cases h
    | some r2 =>
      simp only [h1] at h
      split at h
      · injection h with h
        subst h
        exact applyCols_endDate us hk row r2 h1
      · cases h
  · injection h with h
    subst h
    rfl

theorem mapRows_map_endDate (f : Subscription → Option Subscription)
    (hf : ∀ row r, f row = some r → r.EndDate = row.EndDate) :
    ∀ db db2, mapRows f db = some db2 →
      db2.map Subscription.EndDate = db.map Subscription.EndDate := by
  intro db
  induction db with
  | nil =>
    intro db2 h
    injection h with h
    subst h
    rfl
  | cons r rs ih =>
    intro db2 h
    unfold mapRows at h
    cases h1 : f r with
    | none => simp only [h1] at h; cases h
    | some r2 =>
      simp only [h1] at h
      cases h2 : mapRows f rs with
      | none => simp only [h2] at h; cases h
      | some rs2 =>
        simp only [h2] at h
        injection h with h
        subst h
        simp [hf r r2 h1, ih rs2 h2]

/-- On a successful dynamic UPDATE whose SET clauses never mention
`end_date`, every row's end date is preserved. -/
theorem repoUpdate_map_endDate (db db2 : List Subscription) (u : Nat)
    (us : List (String × SqlValue))
    (hk : ∀ kv ∈ us, kv.1 ≠ "end_date")
    (h : repoUpdate db u us = .ok db2) :
    db2.map Subscription.EndDate = db.map Subscription.EndDate := by
  unfold repoUpdate at h
  split at h
  · injection h with h
    subst h
    rfl
  · split at h
    · cases h
    · cases h1 : mapRows (updateRow u us) db with
      | none => simp only [h1] at h; cases h
      | some db3 =>
        simp only [h1] at h
        split at h
        · injection h with h
          subst h
          exact mapRows_map_endDate (updateRow u us) (updateRow_endDate u us hk) db db3 h1
        · cases h
theorem applyCol_ID (row r : Subscription) (kv : String × SqlValue)
    (h : applyCol row kv = some r) : r.ID = row.ID := by
  rcases kv with ⟨k, v⟩
  by_cases h1 : k = "service_name"
  · subst h1
    cases v with
    | str s => simp [applyCol] at h; rw [← h]
    | int n => simp [applyCol] at h
    | date d => simp [applyCol] at h
    | null => simp [applyCol] at h
  · by_cases h2 : k = "price"
    · subst h2
      cases v with
      | str s => simp [applyCol] at h
      | int n => simp [applyCol] at h; rw [← h]
      | date d => simp [applyCol] at h
      | null => simp [applyCol] at h
    · by_cases h3 : k = "end_date"
      · subst h3
        cases v with
        | str s => simp [applyCol] at h
        | int n => simp [applyCol] at h
        | date d => simp [applyCol] at h; rw [← h]
        | null => simp [applyCol] at h; rw [← h]
      · simp [applyCol, h1, h2, h3] at h

theorem applyCols_ID (us : List (String × SqlValue)) :
    ∀ row r, applyCols row us = some r → r.ID = row.ID := by
  induction us with
  | nil =>
    intro row r h
    injection h with h
    subst h
    rfl
  | cons kv rest ih =>
    intro row r h
    unfold applyCols at h
    cases h1 : applyCol row kv with
    | none => simp only [h1] at h; cases h
    | some row2 =>
      simp only [h1] at h
      rw [ih row2 r h, applyCol_ID row row2 kv h1]

theorem updateRow_ID (u : Nat) (us : List (String × SqlValue))
    (row r : Subscription) (h : updateRow u us row = some r) :
    r.ID = row.ID := by
  unfold updateRow at h
  split at h
  · cases h1 : applyCols row us with
    | none => simp only [h1] at h; cases h
    | some r2 =>
      simp only [h1] at h
      split at h
      · injection h with h
        subst h
        exact applyCols_ID us row r2 h1
      · cases h
  · injection h with h
    subst h
    rfl

theorem applyCol_success (row : Subscription) (kv : String × SqlValue)
    (hok : colOk kv = true) : ∃ r, applyCol row kv = some r := by
  rcases kv with ⟨k, v⟩
  by_cases h1 : k = "service_name"
  · subst h1
    cases v with
    | str s => exact ⟨{ row with ServiceName := s }, by simp [applyCol]⟩
    | int n => simp [colOk] at hok
    | date d => simp [colOk] at hok
    | null => simp [colOk] at hok
  · by_cases h2 : k = "price"
    · subst h2
      cases v with
      | str s => simp [colOk, h1] at hok
      | int n => exact ⟨{ row with Price := n }, by simp [applyCol, h1]⟩
      | date d => simp [colOk, h1] at hok
      | null => simp [colOk, h1] at hok
    · by_cases h3 : k = "end_date"
      · subst h3
        cases v with
        | str s => simp [colOk, h1, h2] at hok
        | int n => simp [colOk, h1, h2] at hok
        | date d => exact ⟨{ row with EndDate := some d }, by simp [applyCol, h1, h2]⟩
        | null => exact ⟨{ row with EndDate := none }, by simp [applyCol, h1, h2]⟩
      · simp [colOk, h1, h2, h3] at hok

theorem applyCols_success (us : List (String × SqlValue))
    (hok : us.all colOk = true) :
    ∀ row, ∃ r, applyCols row us = some r := by
  induction us with
  | nil => intro row; exact ⟨row, rfl⟩
  | cons kv rest ih =>
    intro row
    rw [List.all_cons, Bool.and_eq_true] at hok
    obtain ⟨hok1, hokr⟩ := hok
    obtain ⟨row2, h2⟩ := applyCol_success row kv hok1
    obtain ⟨r, hr⟩ := ih hokr row2
    refine ⟨r, ?_⟩
    unfold applyCols
    rw [h2]
    exact hr

theorem applyCol_price (row r : Subscription) (kv : String × SqlValue)
    (h : applyCol row kv = some r) :
    r.Price = row.Price ∨ ∃ p, kv = ("price", SqlValue.int p) ∧ r.Price = p := by
  rcases kv with ⟨k, v⟩
  by_cases h1 : k = "service_name"
  · subst h1
    cases v with
    | str s => left; simp [applyCol] at h; rw [← h]
    | int n => simp [applyCol] at h
    | date d => simp [applyCol] at h
    | null => simp [applyCol] at h
  · by_cases h2 : k = "price"
    · subst h2
      cases v with
      | str s => simp [applyCol] at h
      | int n =>
        right
        refine ⟨n, rfl, ?_⟩
        simp [applyCol] at h
        rw [← h]
      | date d => simp [applyCol] at h
      | null => simp [applyCol] at h
    · by_cases h3 : k = "end_date"
      · subst h3
        cases v with
        | str s => simp [applyCol] at h
        | int n => simp [applyCol] at h
        | date d => left; simp [applyCol] at h; rw [← h]
        | null => left; simp [applyCol] at h; rw [← h]
      · simp [applyCol, h1, h2, h3] at h

theorem applyCols_price (us : List (String × SqlValue)) :
    ∀ row r, 0 ≤ row.Price →
      (∀ p, ("price", SqlValue.int p) ∈ us → 0 ≤ p) →
      applyCols row us = some r → 0 ≤ r.Price := by
  induction us with
  | nil =>
    intro row r h0 _ h
    injection h with h
    subst h
    exact h0
  | cons kv rest ih =>
    intro row r h0 hbound h
    unfold applyCols at h
    cases h1 : applyCol row kv with
    | none => simp only [h1] at h; cases h
    | some row2 =>
      simp only [h1] at h
      have h02 : 0 ≤ row2.Price := by
        rcases applyCol_price row row2 kv h1 with heq | ⟨p, hkv, hp⟩
        · rw [heq]; exact h0
        · rw [hp]; exact hbound p (by rw [← hkv]; simp)
      exact ih row2 r h02 (fun p hp => hbound p (by simp [hp])) h

theorem applyCols_endNull (us1 : List (String × SqlValue))
    (row r : Subscription)
    (h : applyCols row (us1 ++ [("end_date", SqlValue.null)]) = some r) :
    r.EndDate = none := by
  rw [applyCols_append] at h
  cases h1 : applyCols row us1 with
  | none => simp only [h1] at h; cases h
  | some r1 =>
    simp only [h1] at h
    simp [applyCols, applyCol] at h
    rw [← h]

theorem updateRow_endNull (u : Nat) (us1 : List (String × SqlValue))
    (row r : Subscription)
    (h : updateRow u (us1 ++ [("end_date", SqlValue.null)]) row = some r)
    (hid : (row.ID == u) = true) : r.EndDate = none := by
  unfold updateRow at h
  rw [if_pos hid] at h
  cases h1 : applyCols row (us1 ++ [("end_date", SqlValue.null)]) with
  | none => simp only [h1] at h; cases h
  | some r2 =>
    simp only [h1] at h
    split at h
    · injection h with h
      subst h
      exact applyCols_endNull us1 row r2 h1
    · cases h

theorem updateRow_success (u : Nat) (us1 : List (String × SqlValue))
    (hok : (us1 ++ [("end_date", SqlValue.null)]).all colOk = true)
    (hprices : ∀ p,
      ("price", SqlValue.int p) ∈ us1 ++ [("end_date", SqlValue.null)] → 0 ≤ p) :
    ∀ row, rowOk row = true →
      ∃ r, updateRow u (us1 ++ [("end_date", SqlValue.null)]) row = some r := by
  intro row hrow
  by_cases hid : (row.ID == u) = true
  · obtain ⟨r0, hr0⟩ :=
      applyCols_success (us1 ++ [("end_date", SqlValue.null)]) hok row
    have hEnd : r0.EndDate = none := applyCols_endNull us1 row r0 hr0
    have h0 : 0 ≤ row.Price := by
      unfold rowOk at hrow
      rw [Bool.and_eq_true] at hrow
      simpa using hrow.1
    have hP : 0 ≤ r0.Price :=
      applyCols_price (us1 ++ [("end_date", SqlValue.null)]) row r0 h0 hprices hr0
    have hrOk : rowOk r0 = true := by
      unfold rowOk
      rw [hEnd]
      simp [hP]
    refine ⟨r0, ?_⟩
    unfold updateRow
    rw [if_pos hid]
    simp only [hr0]
    rw [if_pos hrOk]
  · exact ⟨row, by unfold updateRow; rw [if_neg hid]⟩

theorem mapRows_total (f : Subscription → Option Subscription) :
    ∀ db, (∀ row ∈ db, ∃ r, f row = some r) →
      ∃ db2, mapRows f db = some db2 := by
  intro db
  induction db with
  | nil => intro _; exact ⟨[], rfl⟩
  | cons r rs ih =>
    intro hall
    obtain ⟨r2, hr2⟩ := hall r (by simp)
    obtain ⟨rs2, hrs2⟩ := ih (fun row hrow => hall row (by simp [hrow]))
    refine ⟨r2 :: rs2, ?_⟩
    unfold mapRows
    rw [hr2, hrs2]

theorem mapRows_mem_fwd (f : Subscription → Option Subscription) :
    ∀ db db2, mapRows f db = some db2 →
      ∀ row ∈ db, ∃ r2 ∈ db2, f row = some r2 := by
  intro db
  induction db with
  | nil => intro db2 _ row hrow; cases hrow
  | cons r rs ih =>
    intro db2 h row hrow
    unfold mapRows at h
    cases h1 : f r with
    | none => simp only [h1] at h; cases h
    | some r2 =>
      simp only [h1] at h
      cases h2 : mapRows f rs with
      | none => simp only [h2] at h; cases h
      | some rs2 =>
        simp only [h2] at h
        injection h with h
        subst h
        rcases List.mem_cons.mp hrow with heq | hmem
        · subst heq
          exact ⟨r2, by simp, h1⟩
        · obtain ⟨r3, hr3mem, hr3⟩ := ih rs2 h2 row hmem
          exact ⟨r3, by simp [hr3mem], hr3⟩

theorem mapRows_mem_bwd (f : Subscription → Option Subscription) :
    ∀ db db2, mapRows f db = some db2 →
      ∀ r2 ∈ db2, ∃ row ∈ db, f row = some r2 := by
  intro db
  induction db with
  | nil =>
    intro db2 h r2 hr2
    injection h with h
    subst h
    cases hr2
  | cons r rs ih =>
    intro db2 h r2 hr2
    unfold mapRows at h
    cases h1 : f r with
    | none => simp only [h1] at h; cases h
    | some r0 =>
      simp only [h1] at h
      cases h2 : mapRows f rs with
      | none => simp only [h2] at h; cases h
      | some rs2 =>
        simp only [h2] at h
        injection h with h
        subst h
        rcases List.mem_cons.mp hr2 with heq | hmem
        · subst heq
          exact ⟨r, by simp, h1⟩
        · obtain ⟨row, hrowmem, hrow⟩ := ih rs2 h2 r2 hmem
          exact ⟨row, by simp [hrowmem], hrow⟩

/-- A dynamic UPDATE whose SET list ends with `end_date = NULL` succeeds on a
well-formed store containing the target id, and afterwards the point lookup
for that id shows no end date. -/
theorem repoUpdate_clears_end (db : List Subscription) (u : Nat)
    (us1 : List (String × SqlValue)) (row0 : Subscription)
    (hok : (us1 ++ [("end_date", SqlValue.null)]).all colOk = true)
    (hprices : ∀ p,
      ("price", SqlValue.int p) ∈ us1 ++ [("end_date", SqlValue.null)] → 0 ≤ p)
    (hdb : ∀ row ∈ db, rowOk row = true)
    (hfind : repoGetByID db u = some row0) :
    ∃ db2 sub, repoUpdate db u (us1 ++ [("end_date", SqlValue.null)]) = .ok db2 ∧
      repoGetByID db2 u = some sub ∧ sub.EndDate = none := by
  have hexists : ∀ row ∈ db,
      ∃ r, updateRow u (us1 ++ [("end_date", SqlValue.null)]) row = some r :=
    fun row hrow => updateRow_success u us1 hok hprices row (hdb row hrow)
  obtain ⟨db2, hmr⟩ :=
    mapRows_total (updateRow u (us1 ++ [("end_date", SqlValue.null)])) db hexists
  have hfind' : db.find? (fun r => r.ID == u) = some row0 := hfind
  have hmem0 : row0 ∈ db := List.mem_of_find?_eq_some hfind'
  have hp0 : (row0.ID == u) = true := by
    have := List.find?_some hfind'
    simpa using this
  have hany : (db.any fun r => r.ID == u) = true :=
    List.any_eq_true.mpr ⟨row0, hmem0, hp0⟩
  have hne : (us1 ++ [("end_date", SqlValue.null)]).isEmpty = false := by
    simp
  have hrep : repoUpdate db u (us1 ++ [("end_date", SqlValue.null)]) = .ok db2 := by
    unfold repoUpdate
    rw [hne]
    simp only [hok, hmr, hany]
    simp
  obtain ⟨r2, hr2mem, hfr2⟩ :=
    mapRows_mem_fwd (updateRow u (us1 ++ [("end_date", SqlValue.null)]))
      db db2 hmr row0 hmem0
  have hr2id : r2.ID = row0.ID := updateRow_ID u _ row0 r2 hfr2
  have hsome : (db2.find? (fun r => r.ID == u)).isSome :=
    List.find?_isSome.mpr ⟨r2, hr2mem, by rw [hr2id]; exact hp0⟩
  obtain ⟨sub, hsub⟩ := Option.isSome_iff_exists.mp hsome
  have hsub' : db2.find? (fun r => r.ID == u) = some sub := hsub
  have hsubmem : sub ∈ db2 := List.mem_of_find?_eq_some hsub'
  have hsubid : (sub.ID == u) = true := by
    have := List.find?_some hsub'
    simpa using this
  obtain ⟨rowx, hrxmem, hfrx⟩ :=
    mapRows_mem_bwd (updateRow u (us1 ++ [("end_date", SqlValue.null)]))
      db db2 hmr sub hsubmem
  have hrxid : sub.ID = rowx.ID := updateRow_ID u _ rowx sub hfrx
  have hrxidu : (rowx.ID == u) = true := by rw [← hrxid]; exact hsubid
  exact ⟨db2, sub, hrep, hsub', updateRow_endNull u us1 rowx sub hfrx hrxidu⟩

theorem buildUpdates_no_end (req : UpdateSubscriptionRequest)
    (us : List (String × SqlValue)) (hend : req.EndDate = none)
    (hb : buildUpdates req = .ok us) : ∀ kv ∈ us, kv.1 ≠ "end_date" := by
  rcases req with ⟨sn, pr, ed⟩
  replace hend : ed = none := hend
  subst hend
  cases sn <;> cases pr <;>
    simp only [buildUpdates, buildUpdatesEnd] at hb <;>
    repeat' split at hb
  all_goals injection hb
  all_goals rename_i hb2
  all_goals subst hb2
  all_goals intro kv hkv
  all_goals simp at hkv
  all_goals
    first
    | (subst hkv; simp)
    | (rcases hkv with rfl | rfl <;> simp)

theorem buildUpdates_end_sentinel (req : UpdateSubscriptionRequest)
    (us : List (String × SqlValue)) (hend : req.EndDate = some "")
    (hb : buildUpdates req = .ok us) :
    ∃ us1, us = us1 ++ [("end_date", SqlValue.null)] ∧
      (us1 ++ [("end_date", SqlValue.null)]).all colOk = true ∧
      ∀ p, ("price", SqlValue.int p) ∈ us1 ++ [("end_date", SqlValue.null)] →
        0 ≤ p := by
  rcases req with ⟨sn, pr, ed⟩
  replace hend : ed = some "" := hend
  subst hend
  cases sn with
  | none =>
    cases pr with
    | none =>
      simp only [buildUpdates, buildUpdatesEnd] at hb
      rw [if_pos (by rfl)] at hb
      injection hb
      rename_i hb2
      subst hb2
      exact ⟨[], rfl, rfl, by intro q hq; simp at hq⟩
    | some p =>
      simp only [buildUpdates, buildUpdatesEnd] at hb
      by_cases hp : p < 0
      · rw [if_pos hp] at hb
        cases hb
      · rw [if_neg hp, if_pos (by rfl)] at hb
        injection hb
        rename_i hb2
        subst hb2
        refine ⟨[("price", SqlValue.int p)], rfl, rfl, ?_⟩
        intro q hq
        simp at hq
        subst hq
        exact Int.not_lt.mp hp
  | some s =>
    cases pr with
    | none =>
      simp only [buildUpdates, buildUpdatesEnd] at hb
      rw [if_pos (by rfl)] at hb
      injection hb
      rename_i hb2
      subst hb2
      exact ⟨[("service_name", SqlValue.str s)], rfl, rfl,
        by intro q hq; simp at hq⟩
    | some p =>
      simp only [buildUpdates, buildUpdatesEnd] at hb
      by_cases hp : p < 0
      · rw [if_pos hp] at hb
        cases hb
      · rw [if_neg hp, if_pos (by rfl)] at hb
        injection hb
        rename_i hb2
        subst hb2
        refine ⟨[("service_name", SqlValue.str s), ("price", SqlValue.int p)],
          rfl, rfl, ?_⟩
        intro q hq
        simp at hq
        subst hq
        exact Int.not_lt.mp hp

/-- C6: (i) an update request carrying the empty-string end-date sentinel
puts `end_date ↦ NULL` in the update set; (ii) on a well-formed store
containing the target id (and a non-negative price when one is supplied),
such an update succeeds and a subsequent fetch of that id shows no end
date; (iii) a request with the end-date field entirely absent leaves every
stored end date unchanged, whatever the outcome. -/
theorem update_end_sentinel_clears :
    (∀ (req : UpdateSubscriptionRequest) (us : List (String × SqlValue)),
        req.EndDate = some "" → buildUpdates req = .ok us →
        ("end_date", SqlValue.null) ∈ us) ∧
    (∀ (db : List Subscription) (id : String) (req : UpdateSubscriptionRequest)
        (u : Nat) (row0 : Subscription),
        parseUUID id = some u → req.EndDate = some "" →
        (∀ p, req.Price = some p → ¬ p < 0) →
        (∀ row ∈ db, rowOk row = true) →
        repoGetByID db u = some row0 →
        ∃ db2 sub, serviceUpdate db id req = (.ok (), db2) ∧
          repoGetByID db2 u = some sub ∧ sub.EndDate = none) ∧
    (∀ (db : List Subscription) (id : String) (req : UpdateSubscriptionRequest),
        req.EndDate = none →
        (serviceUpdate db id req).2.map Subscription.EndDate =
          db.map Subscription.EndDate) := by
  refine ⟨?_, ?_, ?_⟩
  · intro req us hend hb
    obtain ⟨us1, rfl, -, -⟩ := buildUpdates_end_sentinel req us hend hb
    simp
  · intro db id req u row0 hu hend hple hdb hfind
    cases hb : buildUpdates req with
    | error e =>
      exfalso
      rcases req with ⟨sn, pr, ed⟩
      replace hend : ed = some "" := hend
      subst hend
      cases sn <;> cases pr <;>
        simp only [buildUpdates, buildUpdatesEnd] at hb <;>
        repeat' split at hb
      all_goals simp_all
      all_goals omega
    | ok us =>
      obtain ⟨us1, rfl, hok, hprices⟩ :=
        buildUpdates_end_sentinel req us hend hb
      have hplan : updatePlan id req =
          .ok (u, us1 ++ [("end_date", SqlValue.null)]) := by
        unfold updatePlan
        rw [hu, hb]
        simp
      obtain ⟨db2, sub, hrep, hfound, hendn⟩ :=
        repoUpdate_clears_end db u us1 row0 hok hprices hdb hfind
      refine ⟨db2, sub, ?_, hfound, hendn⟩
      unfold serviceUpdate
      rw [hplan]
      simp only [hrep]
  · intro db id req hend
    unfold serviceUpdate
    cases hplan : updatePlan id req with
    | error e => rfl
    | ok x =>
      rcases x with ⟨u, us⟩
      have hb : buildUpdates req = .ok us := by
        unfold updatePlan at hplan
        cases hid : parseUUID id with
        | none => simp only [hid] at hplan; cases hplan
        | some u0 =>
          simp only [hid] at hplan
          cases hb0 : buildUpdates req with
          | error e => simp only [hb0] at hplan; cases hplan
          | ok us0 =>
            simp only [hb0] at hplan
            split at hplan
            · cases hplan
            · injection hplan with hplan
              injection hplan with h1 h2
              rw [h2]
      have hkeys := buildUpdates_no_end req us hend hb
      cases hrep : repoUpdate db u us with
      | error e =>
        cases e <;> simp only [hrep]
      | ok db2 =>
        simp only [hrep]
        exact repoUpdate_map_endDate db db2 u us hkeys hrep

theorem update_end_sentinel_clears_witness :
    ("end_date", SqlValue.null) ∈ [("end_date", SqlValue.null)] ∧
    (∃ db2 sub,
        serviceUpdate [⟨1, "Netflix", 5, 9, ⟨2024, 1, 1⟩, some ⟨2024, 6, 1⟩⟩]
            "00000000-0000-0000-0000-000000000001" ⟨none, none, some ""⟩ =
          (.ok (), db2) ∧
        repoGetByID db2 1 = some sub ∧ sub.EndDate = none) ∧
    (serviceUpdate [⟨1, "Netflix", 5, 9, ⟨2024, 1, 1⟩, some ⟨2024, 6, 1⟩⟩]
        "00000000-0000-0000-0000-000000000001"
        ⟨none, some 7, none⟩).2.map Subscription.EndDate =
      [⟨1, "Netflix", 5, 9, ⟨2024, 1, 1⟩, some ⟨2024, 6, 1⟩⟩].map
        Subscription.EndDate :=
  ⟨update_end_sentinel_clears.1 ⟨none, none, some ""⟩
      [("end_date", SqlValue.null)] rfl rfl,
   update_end_sentinel_clears.2.1
     [⟨1, "Netflix", 5, 9, ⟨2024, 1, 1⟩, some ⟨2024, 6, 1⟩⟩]
     "00000000-0000-0000-0000-000000000001" ⟨none, none, some ""⟩ 1
     ⟨1, "Netflix", 5, 9, ⟨2024, 1, 1⟩, some ⟨2024, 6, 1⟩⟩
     (by decide) rfl (by intro p hp; cases hp) (by decide) (by decide),
   update_end_sentinel_clears.2.2
     [⟨1, "Netflix", 5, 9, ⟨2024, 1, 1⟩, some ⟨2024, 6, 1⟩⟩]
     "00000000-0000-0000-0000-000000000001" ⟨none, some 7, none⟩ rfl⟩

/-! ## Claim C10 -/

theorem likeM_nil (t : List Char) : likeM [] t = t.isEmpty :=
  (likeM.eq_def [] t).trans rfl

theorem likeM_plain (c : Char) (ps t : List Char)
    (h1 : c ≠ '\\') (h2 : c ≠ '%') :
    likeM (c :: ps) t =
      match t with
      | [] => false
      | a :: ts => (if c = '_' then true else c == a) && likeM ps ts := by
  refine (likeM.eq_def (c :: ps) t).trans ?_
  show (if c = '\\' then
          match ps with
          | [] => false
          | e :: ps2 =>
            match t with
            | [] => false
            | a :: ts => (e == a) && likeM ps2 ts
        else if c = '%' then t.tails.any (fun suf => likeM ps suf)
        else
          match t with
          | [] => false
          | a :: ts => (if c = '_' then true else c == a) && likeM ps ts) = _
  rw [if_neg h1, if_neg h2]

theorem likeM_plain_nil (c : Char) (ps : List Char)
    (h1 : c ≠ '\\') (h2 : c ≠ '%') : likeM (c :: ps) [] = false :=
  (likeM_plain c ps [] h1 h2).trans rfl

theorem likeM_plain_cons (c a : Char) (ps ts : List Char)
    (h1 : c ≠ '\\') (h2 : c ≠ '%') :
    likeM (c :: ps) (a :: ts) =
      ((if c = '_' then true else c == a) && likeM ps ts) :=
  (likeM_plain c ps (a :: ts) h1 h2).trans rfl

theorem likeM_pct (ps t : List Char) :
    likeM ('%' :: ps) t = t.tails.any (fun suf => likeM ps suf) :=
  (likeM.eq_def ('%' :: ps) t).trans rfl

theorem likeM_exact :
    ∀ p : List Char, (∀ c ∈ p, c ≠ '%' ∧ c ≠ '_' ∧ c ≠ '\\') →
      ∀ t, likeM p t = true ↔ t = p := by
  intro p
  induction p with
  | nil =>
    intro _ t
    rw [likeM_nil]
    simp [List.isEmpty_iff]
  | cons c ps ih =>
    intro hw t
    have hc := hw c (by simp)
    have hps : ∀ c2 ∈ ps, c2 ≠ '%' ∧ c2 ≠ '_' ∧ c2 ≠ '\\' :=
      fun c2 hc2 => hw c2 (by simp [hc2])
    cases t with
    | nil =>
      rw [likeM_plain_nil c ps hc.2.2 hc.1]
      simp
    | cons a ts =>
      rw [likeM_plain_cons c a ps ts hc.2.2 hc.1, if_neg hc.2.1]
      rw [Bool.and_eq_true, ih hps ts]
      constructor
      · rintro ⟨h1, rfl⟩
        have hca : c = a := by simpa using h1
        rw [hca]
      · intro h
        injection h with h1 h2
        exact ⟨by simp [h1], h2⟩

theorem likeM_pct_head (ps : List Char) (t : List Char) :
    likeM ('%' :: ps) t = true ↔ ∃ u v, t = u ++ v ∧ likeM ps v = true := by
  rw [likeM_pct, List.any_eq_true]
  constructor
  · rintro ⟨suf, hmem, hsuf⟩
    obtain ⟨u, hu⟩ := (List.mem_tails suf t).mp hmem
    exact ⟨u, suf, hu.symm, hsuf⟩
  · rintro ⟨u, v, rfl, hv⟩
    exact ⟨v, (List.mem_tails v (u ++ v)).mpr ⟨u, rfl⟩, hv⟩

theorem likeM_tail_pct :
    ∀ p : List Char, (∀ c ∈ p, c ≠ '%' ∧ c ≠ '_' ∧ c ≠ '\\') →
      ∀ t, likeM (p ++ ['%']) t = true ↔ ∃ v, t = p ++ v := by
  intro p
  induction p with
  | nil =>
    intro _ t
    constructor
    · intro _
      exact ⟨t, rfl⟩
    · intro _
      show likeM ('%' :: []) t = true
      rw [likeM_pct, List.any_eq_true]
      exact ⟨[], (List.mem_tails [] t).mpr ⟨t, by simp⟩,
        (likeM_nil []).trans rfl⟩
  | cons c ps ih =>
    intro hw t
    have hc := hw c (by simp)
    have hps : ∀ c2 ∈ ps, c2 ≠ '%' ∧ c2 ≠ '_' ∧ c2 ≠ '\\' :=
      fun c2 hc2 => hw c2 (by simp [hc2])
    cases t with
    | nil =>
      rw [List.cons_append]
      rw [likeM_plain_nil c (ps ++ ['%']) hc.2.2 hc.1]
      simp
    | cons a ts =>
      rw [List.cons_append]
      rw [likeM_plain_cons c a (ps ++ ['%']) ts hc.2.2 hc.1, if_neg hc.2.1]
      rw [Bool.and_eq_true, ih hps ts]
      constructor
      · rintro ⟨hca, v, rfl⟩
        refine ⟨v, ?_⟩
        have h : c = a := by simpa using hca
        rw [List.cons_append, h]
      · rintro ⟨v, hv⟩
        rw [List.cons_append] at hv
        injection hv with h1 h2
        exact ⟨by simp [h1], v, h2⟩

theorem lowerL_append (a b : String) :
    lowerL (a ++ b) = lowerL a ++ lowerL b := by
  simp [lowerL, String.toList]

/-- C10 counterexample: the raw aggregate filter string is an ILIKE pattern,
so the filter `"%"` matches (and its subscription's price is summed) even
though `"netflix"` does not equal `"%"` case-insensitively. -/
theorem agg_filter_wildcard_counterexample :
    serviceAggregate [⟨1, "netflix", 7, 2, ⟨2024, 3, 1⟩, none⟩]
        ⟨none, some "%", "2024-01-01", "2024-12-01"⟩ = .ok 7 ∧
    aggServiceMatch "%" "netflix" = true ∧
    lowerL "netflix" ≠ lowerL "%" := by decide

/-- C10 amended: the aggregate path passes the service-name filter to the
case-insensitive match without added wildcards, so for a filter containing
no LIKE wildcard or escape characters (no `%`, `_` or backslash) it selects
exactly the subscriptions whose name equals the filter in full
(case-insensitively); the list path wraps the filter in `%`...`%` and, for
such filters, selects exactly case-insensitive substring matches. Wildcard
characters in an aggregate filter are still interpreted by ILIKE, and
backslashes as its escape character. -/
theorem agg_exact_vs_list_substring (pat name : String)
    (hw : ∀ c ∈ lowerL pat, c ≠ '%' ∧ c ≠ '_' ∧ c ≠ '\\') :
    (aggServiceMatch pat name = true ↔ lowerL name = lowerL pat) ∧
    (listServiceMatch pat name = true ↔
      ∃ u v, lowerL name = u ++ lowerL pat ++ v) := by
  constructor
  · exact likeM_exact (lowerL pat) hw (lowerL name)
  · show likeM (lowerL ("%" ++ pat ++ "%")) (lowerL name) = true ↔ _
    rw [lowerL_append, lowerL_append]
    have h1 : lowerL "%" = ['%'] := rfl
    rw [h1]
    show likeM ('%' :: (lowerL pat ++ ['%'])) (lowerL name) = true ↔ _
    rw [likeM_pct_head]
    constructor
    · rintro ⟨u, v, hn, hv⟩
      obtain ⟨w, rfl⟩ := (likeM_tail_pct (lowerL pat) hw v).mp hv
      exact ⟨u, w, by rw [hn, List.append_assoc]⟩
    · rintro ⟨u, w, hn⟩
      refine ⟨u, lowerL pat ++ w, by rw [hn, List.append_assoc], ?_⟩
      exact (likeM_tail_pct (lowerL pat) hw (lowerL pat ++ w)).mpr ⟨w, rfl⟩

theorem agg_exact_vs_list_substring_witness :
    (aggServiceMatch "NetFlix" "netflix" = true ↔
      lowerL "netflix" = lowerL "NetFlix") ∧
    (listServiceMatch "NetFlix" "my netflix app" = true ↔
      ∃ u v, lowerL "my netflix app" = u ++ lowerL "NetFlix" ++ v) :=
  ⟨(agg_exact_vs_list_substring "NetFlix" "netflix" (by decide)).1,
   (agg_exact_vs_list_substring "NetFlix" "my netflix app" (by decide)).2⟩
